import Mathlib

/-!
Verification development for the torq device-control core
(`src/device.py`, `src/shell.py`).  Python functions are shallowly
embedded as executable Lean definitions; text replies of the transport
are plain `String` inputs, and Python exceptions (`IndexError`,
`ValueError`, timeouts) are modelled with `Except`.
-/

namespace Torq

/-! ## Python string primitives

The source manipulates command output with `str.split`, slicing and
`str.strip`.  The separators used in the repository are all single
characters, so splitting is embedded on `List Char`. -/

/-- Python `s.split(sep)` for a one-character separator, on char lists:
`"".split(c) = [""]`, separators at either end produce empty fields. -/
def pySplitChar : List Char → Char → List (List Char)
  | [], _ => [[]]
  | x :: xs, c =>
    match pySplitChar xs c with
    | [] => [[]]
    | y :: ys => if x = c then [] :: y :: ys else (x :: y) :: ys

/-- Python `s.split(sep)` for a one-character separator. -/
def pySplit (s : String) (c : Char) : List String :=
  (pySplitChar s.data c).map (fun l => String.mk l)

/-- Python `s.split(sep, 1)[0]` for a one-character separator: the text
before the first occurrence of the separator, or all of `s` when the
separator does not occur. -/
def firstField (s : String) (c : Char) : String :=
  String.mk (s.data.takeWhile (fun x => x ≠ c))

/-- Python `s.split(sep, 1)` for a one-character separator: `none` when
the separator does not occur (so that indexing `[1]` would raise), and
the two surrounding pieces otherwise. -/
def splitOnce (s : String) (c : Char) : Option (String × String) :=
  if s.data.contains c then
    some (String.mk (s.data.takeWhile (fun x => x ≠ c)),
          String.mk ((s.data.dropWhile (fun x => x ≠ c)).tail))
  else none

/-- Characters stripped by Python `str.strip()` (ASCII fragment:
space, tab, newline, carriage return, vertical tab, form feed). -/
def pyIsSpace (c : Char) : Bool :=
  c = ' ' ∨ c = Char.ofNat 9 ∨ c = Char.ofNat 10 ∨ c = Char.ofNat 13 ∨
  c = Char.ofNat 11 ∨ c = Char.ofNat 12

/-- Python `s.strip()` (ASCII whitespace; the Unicode forms never occur
in the transport replies the source strips). -/
def pyStrip (s : String) : String :=
  String.mk (((s.data.dropWhile pyIsSpace).reverse.dropWhile pyIsSpace).reverse)

/-- Value of a list of decimal digit characters. -/
def digitsToNat (l : List Char) : ℕ :=
  l.foldl (fun a c => a * 10 + (c.toNat - 48)) 0

/-- Python `int(s)` on a decoded reply: strips whitespace, accepts an
optional sign followed by at least one digit, and returns `none` (a
`ValueError` in Python) otherwise.  the Python underscore digit grouping
is not modelled; no reply in the repository contains it. -/
def pyInt? (s : String) : Option Int :=
  let t := (pyStrip s).data
  let p : Int × List Char :=
    match t with
    | c :: rest => if c = '-' then (-1, rest) else if c = '+' then (1, rest) else (1, t)
    | [] => (1, [])
  if p.2 ≠ [] ∧ p.2.all (fun c => c.isDigit) then some (p.1 * (digitsToNat p.2 : Int))
  else none

/-- Whether `pat` occurs as a contiguous run inside `l`. -/
def seqIn : List Char → List Char → Bool
  | pat, [] => pat.isEmpty
  | pat, c :: t => pat.isPrefixOf (c :: t) || seqIn pat t

/-- Whether the string `pat` occurs as a substring of `s`; used to state
that an error message names a serial or a package. -/
def containsSeq (pat s : String) : Bool :=
  seqIn pat.data s.data

/-- A single-quote character, kept out of string literals. -/
def pyQuote : String := String.mk [Char.ofNat 39]

/-- Python `str(list-of-strings)` as interpolated by `"%s" % lst` for
names without quotes or escapes: `[`, the elements single-quoted and
comma-separated, `]`. -/
def pyReprStrList (l : List String) : String :=
  "[" ++ String.intercalate ", " (l.map (fun s => pyQuote ++ s ++ pyQuote)) ++ "]"

/-! ## Validation/Error model -/

/-- Modelled from the spec: `base.py` is not in src.  A `ValidationError`
carries a human-readable message and an optional actionable suggestion;
it is the uniform return value for expected domain failures. -/
structure ValidationError where
  message : String
  suggestion : Option String
deriving DecidableEq, Repr

/-! ## `AndroidDevice.simpleperf_event_exists` (`device.py` 275‑309)

The device-side command output (`simpleperf list` piped through the
grep filter) is the `list_output` input; `binary_on_device` stands for
`self.file_exists("/system/bin/simpleperf")`. -/

/-- Loop-body filter of `simpleperf_event_exists`: Python skips a line
when `len(line) <= 3 or line[:2] != "  " or line[2] == "#"`, and
otherwise extracts `line[2:].split(" ")[0]`. -/
def parseEventLine (line : String) : Option String :=
  let cs := line.data
  if cs.length ≤ 3 ∨ cs.take 2 ≠ [' ', ' '] ∨ cs[2]? = some (Char.ofNat 35) then none
  else some (String.mk ((pySplitChar (cs.drop 2) ' ').headD []))

/-- The scanning loop of `simpleperf_event_exists`: each recognised
event name removes its first occurrence from `events_copy`
(`events_copy.remove(event)`), and the loop breaks early once the copy
is empty. -/
def scanLines : List String → List String → List String
  | [], events_copy => events_copy
  | line :: rest, events_copy =>
    match parseEventLine line with
    | none => scanLines rest events_copy
    | some event =>
      if event ∈ events_copy then
        let ec := events_copy.erase event
        if ec.length = 0 then ec else scanLines rest ec
      else scanLines rest events_copy

/-- The error returned when `/system/bin/simpleperf` is absent. -/
def simpleperfMissingError : ValidationError :=
  ⟨"Simpleperf was not found in the device.",
   some "Push the simpleperf binary to the device."⟩

/-- The error returned for the events left in `events_copy` after the
scan (`"The following simpleperf event(s) are invalid: %s." % events_copy`). -/
def invalidEventsError (events_copy : List String) : ValidationError :=
  ⟨"The following simpleperf event(s) are invalid: " ++ pyReprStrList events_copy ++ ".",
   some "Run adb shell simpleperf list to see valid simpleperf events."⟩

/-- `AndroidDevice.simpleperf_event_exists`, result only (the aliasing
behaviour of `events_copy = simpleperf_events.copy()` is embedded
separately below). -/
def simpleperf_event_exists (binary_on_device : Bool) (list_output : String)
    (simpleperf_events : List String) : Option ValidationError :=
  let events_copy := simpleperf_events
  if ¬ binary_on_device then some simpleperfMissingError
  else
    let lines := pySplit list_output (Char.ofNat 10)
    let remaining := scanLines lines events_copy
    if 0 < remaining.length then some (invalidEventsError remaining) else none

/-! ### Mutation-tracking embedding (for the frame claim)

Python lists are mutable objects; `events_copy.remove(event)` writes
through a reference.  To state that the list of the caller is not mutated,
lists of event names live in a store of cells and the function receives
a reference into that store. -/

/-- A store of Python list objects holding event names. -/
structure PyListStore where
  cells : List (List String)
deriving DecidableEq, Repr

/-- Dereference a list object. -/
def readCell (st : PyListStore) (r : ℕ) : List String :=
  (st.cells[r]?).getD []

/-- In-place update of a list object. -/
def writeCell (st : PyListStore) (r : ℕ) (v : List String) : PyListStore :=
  ⟨st.cells.set r v⟩

/-- The scanning loop acting on the store: every `remove` is a write to
the cell `r` holding `events_copy`. -/
def scanLinesSt : List String → PyListStore → ℕ → PyListStore
  | [], st, _ => st
  | line :: rest, st, r =>
    match parseEventLine line with
    | none => scanLinesSt rest st r
    | some event =>
      if event ∈ readCell st r then
        let st' := writeCell st r ((readCell st r).erase event)
        if (readCell st' r).length = 0 then st' else scanLinesSt rest st' r
      else scanLinesSt rest st r

/-- `AndroidDevice.simpleperf_event_exists` with the list of the caller held
in cell `events_ref`: `events_copy = simpleperf_events.copy()` allocates
a fresh cell, and all removals hit the fresh cell only. -/
def simpleperf_event_exists_st (binary_on_device : Bool) (list_output : String)
    (st : PyListStore) (events_ref : ℕ) : PyListStore × Option ValidationError :=
  let copy_ref := st.cells.length
  let st1 : PyListStore := ⟨st.cells ++ [readCell st events_ref]⟩
  if ¬ binary_on_device then (st1, some simpleperfMissingError)
  else
    let lines := pySplit list_output (Char.ofNat 10)
    let st2 := scanLinesSt lines st1 copy_ref
    let remaining := readCell st2 copy_ref
    if 0 < remaining.length then (st2, some (invalidEventsError remaining))
    else (st2, none)

/-! ## `AdbShell.get_adb_devices` (`shell.py` 78‑96)

The raw stdout of `adb devices` is the input; Python `IndexError`s
(`line[0]` on an empty line, `words_in_line[1]` on a line without a
tab) become `Except.error "IndexError"`. -/

/-- The header line of `adb devices` output. -/
def adbDevicesHeader : String := "List of devices attached"

/-- The loop of `get_adb_devices` over `output_lines[:-2]`. -/
def adbScan : List String → Except String (List String)
  | [] => Except.ok []
  | line :: rest =>
    match line.data with
    | [] => Except.error "IndexError"
    | c :: _ =>
      if c = Char.ofNat 42 ∨ line = adbDevicesHeader then adbScan rest
      else
        match pySplit line (Char.ofNat 9) with
        | w0 :: w1 :: _ =>
          if w1 = "device" then (adbScan rest).map (fun ds => w0 :: ds)
          else adbScan rest
        | _ => Except.error "IndexError"

/-- The slice `output_lines[:-2]` of the newline-split listing output
that `get_adb_devices` actually scans. -/
def adbScannedLines (listing_output : String) : List String :=
  let output_lines := pySplit listing_output (Char.ofNat 10)
  output_lines.take (output_lines.length - 2)

/-- `AdbShell.get_adb_devices` on the raw `adb devices` stdout. -/
def get_adb_devices (listing_output : String) : Except String (List String) :=
  adbScan (adbScannedLines listing_output)

/-! ## `AdbShell.get_default_serial` / `verify_serial` (`shell.py` 98‑152)

The host environment is abstracted into `AdbEnv`: `adb_exists` is
`AdbShell.adb_exists()`, `devices` is the (successful) result of
`AdbShell.get_adb_devices()`, `android_serial` is the
`os.environ["ANDROID_SERIAL"]` lookup and `menu_choice` the text the
user would type at the interactive menu. -/

structure AdbEnv where
  adb_exists : Bool
  devices : List String
  android_serial : Option String
  menu_choice : String
deriving DecidableEq, Repr

/-- Modelled from the spec: `handle_input.py` is not in src.  The
interactive numbered menu validates the typed choice against the keys
`str(0) .. str(count-1)` and yields the device at the chosen index;
an out-of-range or non-numeric choice yields a `ValidationError`. -/
def handle_menu_choice (devices : List String) (choice : String) :
    Except ValidationError String :=
  match (List.range devices.length).find? (fun i => toString i = choice) with
  | some i => Except.ok (devices.getD i "")
  | none => Except.error ⟨"Please select a valid option.", none⟩

/-- The error `get_default_serial` returns when `ANDROID_SERIAL` is set
but not connected. -/
def androidSerialNotConnectedError (s : String) : ValidationError :=
  ⟨"Device with serial " ++ s ++ " is set as environment variable,"
   ++ " ANDROID_SERIAL, but is not connected.", none⟩

/-- `AdbShell.get_default_serial`, returning the Python pair
`(serial, error)`. -/
def get_default_serial (env : AdbEnv) : Option String × Option ValidationError :=
  if ¬ env.adb_exists then
    (none, some ⟨"adb could not be found on the host device.", none⟩)
  else
    let devices := env.devices
    if devices.length = 0 then
      (none, some ⟨"There are currently no devices connected.", none⟩)
    else
      match env.android_serial with
      | some s =>
        if ¬ devices.contains s then (none, some (androidSerialNotConnectedError s))
        else (some s, none)
      | none =>
        if devices.length = 1 then (some (devices.getD 0 ""), none)
        else
          match handle_menu_choice devices env.menu_choice with
          | Except.error e => (none, some e)
          | Except.ok chosen => (some chosen, none)

/-- `AdbShell.verify_serial`. -/
def verify_serial (env : AdbEnv) (serial : String) : Option ValidationError :=
  if ¬ env.adb_exists then some ⟨"adb could not be found on the host device.", none⟩
  else if env.devices.length = 0 then
    some ⟨"There are currently no devices connected.", none⟩
  else if ¬ env.devices.contains serial then
    some ⟨"Device with serial " ++ serial ++ " is not connected.", none⟩
  else none

/-! ## `get_device` (`device.py` 34‑48)

`args.serial` is `None` or the one-element list produced by the
`nargs=1` CLI option; the constructed `AndroidDevice(AdbShell(serial))`
is represented by the serial it wraps. -/

/-- `get_device(args, is_device_required)`. -/
def get_device (env : AdbEnv) (args_serial : Option (List String))
    (is_device_required : Bool) : Option String × Option ValidationError :=
  match args_serial with
  | some (s :: _) =>
    (match verify_serial env s with
     | some error => (none, some error)
     | none => (some s, none))
  | _ =>
    let r := get_default_serial env
    match r.2 with
    | none => (r.1, none)
    | some error => if is_device_required then (none, some error) else (none, none)

/-! ## Polling and `wait_for_boot_to_complete` (`device.py` 28‑30, 210‑220)

`utils.py` is not in src, so the polling primitive is modelled from the
spec.  Successive transport replies are a function of the check index:
check `k` happens at elapsed time `k * intervalSecs`. -/

/-- Bounded scan for the first true predicate observation. -/
def pollAux : ℕ → (ℕ → Bool) → ℕ → Bool
  | 0, _, _ => false
  | n + 1, pred, k => if pred k then true else pollAux n pred (k + 1)

/-- Number of predicate evaluations a poll performs: one at each elapsed
time `0, intervalSecs, 2 * intervalSecs, ...` not exceeding
`timeoutSecs`. -/
def pollChecks (timeoutSecs intervalSecs : ℚ) : ℕ :=
  (Int.floor (timeoutSecs / intervalSecs)).toNat + 1

/-- Modelled from the spec: `utils.py` is not in src.
`pollUntil(timeoutSecs, intervalSecs, predicate)` evaluates the
predicate immediately and then every `intervalSecs`, returns `true` on
the first `true` observation and `false` once the elapsed time exceeds
`timeoutSecs` without one. -/
def poll_is_task_completed (timeoutSecs intervalSecs : ℚ) (pred : ℕ → Bool) : Bool :=
  pollAux (pollChecks timeoutSecs intervalSecs) pred 0

/-- `ADB_BOOT_COMPLETED_TIMED_OUT_LIMIT_SECS` (`device.py` 29). -/
def ADB_BOOT_COMPLETED_TIMED_OUT_LIMIT_SECS : ℚ := 30

/-- `POLLING_INTERVAL_SECS` (`device.py` 30). -/
def POLLING_INTERVAL_SECS : ℚ := 1 / 2

/-- `AndroidDevice.is_boot_completed` on the raw
`getprop sys.boot_completed` stdout: the decoded output is stripped and
compared with `"1"`. -/
def is_boot_completed (getprop_output : String) : Bool :=
  pyStrip getprop_output == "1"

/-- `AndroidDevice.wait_for_boot_to_complete`; the raised `Exception`
becomes `Except.error` carrying its message. -/
def wait_for_boot_to_complete (serial : String) (getprop_outputs : ℕ → String) :
    Except String Unit :=
  if poll_is_task_completed ADB_BOOT_COMPLETED_TIMED_OUT_LIMIT_SECS
      POLLING_INTERVAL_SECS (fun k => is_boot_completed (getprop_outputs k)) then
    Except.ok ()
  else
    Except.error ("Device with serial " ++ serial
      ++ " took too long to finish rebooting.")

/-! ## `AndroidDevice.start_package` (`device.py` 240‑250)

The decoded stderr of `adb shell am start <package>` is the input; the
source inspects only `stderr.split("\n")[0]`. -/

/-- The message of the error `start_package` returns. -/
def startPackageErrorMessage (package serial : String) : String :=
  "Cannot start package " ++ package ++ " on device with serial " ++ serial
  ++ " because " ++ package ++ " is a service package, which doesn"
  ++ pyQuote ++ "t implement a MAIN activity."

/-- `AndroidDevice.start_package`. -/
def start_package (package serial : String) (am_start_stderr : String) :
    Option ValidationError :=
  if (pySplit am_start_stderr (Char.ofNat 10)).headD "" ≠ "" then
    some ⟨startPackageErrorMessage package serial, none⟩
  else none

/-! ## `AndroidDevice.get_all_users` / `user_exists` (`device.py` 164‑180)

The raw stdout of `adb shell pm list users` is the input.  Each line of
`output_lines[1:-1]` is parsed by
`int((line.split("{", 1)[1]).split(":", 1)[0])`; a line without `{`
raises `IndexError` and a non-integer field raises `ValueError`. -/

/-- Per-line parse of `get_all_users`. -/
def parseUserLine (line : String) : Except String Int :=
  match splitOnce line (Char.ofNat 123) with
  | none => Except.error "IndexError"
  | some p =>
    match pyInt? (firstField p.2 (Char.ofNat 58)) with
    | some n => Except.ok n
    | none => Except.error "ValueError"

/-- The list comprehension of `get_all_users`, left to right, first
exception wins. -/
def parseUserLines : List String → Except String (List Int)
  | [] => Except.ok []
  | line :: rest =>
    match parseUserLine line with
    | Except.error e => Except.error e
    | Except.ok u =>
      match parseUserLines rest with
      | Except.error e => Except.error e
      | Except.ok us => Except.ok (u :: us)

/-- `AndroidDevice.get_all_users` on the raw `pm list users` stdout
(`output_lines[1:-1]` drops the header line and the trailing piece after
the final newline). -/
def get_all_users (pm_output : String) : Except String (List Int) :=
  parseUserLines (((pySplit pm_output (Char.ofNat 10)).drop 1).dropLast)

/-- The suggestion `user_exists` attaches, enumerating the parsed user
ids in reporting order (`", ".join(map(str, users))`). -/
def userExistsSuggestion (serial : String) (users : List Int) : String :=
  "Select from one of the following user IDs on device with serial "
  ++ serial ++ ": " ++ String.intercalate ", " (users.map toString)

/-- `AndroidDevice.user_exists`. -/
def user_exists (serial : String) (pm_output : String) (user : Int) :
    Except String (Option ValidationError) :=
  match get_all_users pm_output with
  | Except.error e => Except.error e
  | Except.ok users =>
    if ¬ users.contains user then
      Except.ok (some ⟨"User ID " ++ toString user
          ++ " does not exist on device with serial " ++ serial ++ ".",
        some (userExistsSuggestion serial users)⟩)
    else Except.ok none

/-! ## `AndroidDevice.start_simpleperf_trace` (`device.py` 147‑156)

The function only assembles the argument list handed to
`self.shell.popen`; that list is the embedded value.
`dur_ms / 1000` is CPython int/int true division, which produces a
binary64 float: the correctly rounded (round to nearest, ties to even)
53-significant-bit value of the exact quotient.  That rounding is
modelled exactly below; `math.ceil` on the resulting float and the
final `int(...)` are exact integer operations. -/

/-- `SIMPLEPERF_TRACE_FILE` (`device.py` 31). -/
def SIMPLEPERF_TRACE_FILE : String := "/tmp/simpleperf-traces/perf.data"

/-- Round a rational to the nearest integer, ties to even. -/
def rhe (s : ℚ) : ℤ :=
  if s - ⌊s⌋ < 1 / 2 then ⌊s⌋
  else if 1 / 2 < s - ⌊s⌋ then ⌊s⌋ + 1
  else if 2 ∣ ⌊s⌋ then ⌊s⌋ else ⌊s⌋ + 1

/-- Binary64 round-to-nearest-even with unbounded exponent: the
53-significant-bit value nearest to `q`, ties to even.  This is the
value of a CPython float operation whenever the true result lands in
the normal finite double range (magnitude in `[2^(-1022), 2^1024)`);
the quotients taken in this file have magnitude at least `1/1000`, so
subnormals are unreachable, and the overflow region (quotient magnitude
at least `2^1024`, where CPython raises `OverflowError`) is outside the
hypotheses of every theorem below. -/
def pyRound64 (q : ℚ) : ℚ :=
  if q = 0 then 0
  else if 0 < q then
    (rhe (q / 2 ^ (Int.log 2 q - 52)) : ℚ) * 2 ^ (Int.log 2 q - 52)
  else
    -((rhe (-q / 2 ^ (Int.log 2 (-q) - 52)) : ℚ) * 2 ^ (Int.log 2 (-q) - 52))

/-- `int(math.ceil(dur_ms / 1000))` (`device.py` 151): float division of
the integer `dur_ms` by 1000, then the exact ceiling. -/
def pyCeilDurSecs (dur_ms : Int) : Int :=
  ⌈pyRound64 ((dur_ms : ℚ) / 1000)⌉

/-- `AndroidDevice.start_simpleperf_trace`: the `popen` argument list,
from the `simpleperf_event` list of the command and optional `dur_ms`. -/
def start_simpleperf_trace (simpleperf_event : List String)
    (dur_ms : Option Int) : List String :=
  let events_param := "-e " ++ String.intercalate "," simpleperf_event
  let duration : String :=
    match dur_ms with
    | none => ""
    | some d => "--duration " ++ toString (pyCeilDurSecs d)
  ["shell", "simpleperf", "record", "-a", "-f", "1000", "--exclude-perf",
   "--post-unwind=yes", "-m", "8192", "-g", duration, events_param, "-o",
   SIMPLEPERF_TRACE_FILE]

/-! ## Spec-side characterisations

Definitions written from the (amended) specification sentences, to be
compared with the embedded source functions. -/

/-- Event-line rule of the amended claim: a line contributes a candidate
event name exactly when it is longer than three characters, starts with
two spaces and its third character is not `#`; the candidate name is the
run of characters from the third position up to the first space there
(empty for lines indented more deeply). -/
def claimEventName (line : String) : Option String :=
  let cs := line.data
  if 3 < cs.length ∧ cs.take 2 = [' ', ' '] ∧ cs[2]? ≠ some (Char.ofNat 35) then
    some (String.mk ((cs.drop 2).takeWhile (fun x => x ≠ ' ')))
  else none

/-- Requested events still pending after the scan, per the amended
claim: each candidate event name consumes at most one pending occurrence
of an equal requested event, in scan order. -/
def missingEvents (lines : List String) (events : List String) : List String :=
  lines.foldl
    (fun rem line =>
      match claimEventName line with
      | some ev => rem.erase ev
      | none => rem)
    events

/-- Device-listing line classifier of the amended claim: lines starting
with `*` and the header line are skipped, a well-shaped line contributes
its first tab-field exactly when its second tab-field is `device`. -/
def readyId (line : String) : Option String :=
  if line.data.headD ' ' = Char.ofNat 42 ∨ line = adbDevicesHeader then none
  else
    match pySplit line (Char.ofNat 9) with
    | w0 :: w1 :: _ => if w1 = "device" then some w0 else none
    | _ => none

/-- A scanned device-listing line the source can process without an
`IndexError`: nonempty, and either skipped or holding at least two
tab-separated fields. -/
def adbLineSafe (line : String) : Prop :=
  line ≠ "" ∧ (line.data.headD ' ' = Char.ofNat 42 ∨ line = adbDevicesHeader ∨
    2 ≤ (pySplit line (Char.ofNat 9)).length)

instance (line : String) : Decidable (adbLineSafe line) := by
  unfold adbLineSafe
  infer_instance

/-! ## Helper lemmas -/

theorem data_append (s t : String) : (s ++ t).data = s.data ++ t.data := rfl

theorem isPrefixOf_self_append (l r : List Char) : l.isPrefixOf (l ++ r) = true := by
  induction l with
  | nil => simp [List.isPrefixOf]
  | cons a t ih => simp [List.isPrefixOf, ih]

theorem seqIn_self_append (pat post : List Char) : seqIn pat (pat ++ post) = true := by
  cases pat with
  | nil =>
    cases post with
    | nil => simp [seqIn, List.isEmpty]
    | cons c t => simp [seqIn, List.isPrefixOf]
  | cons a p =>
    simp only [List.cons_append, seqIn, Bool.or_eq_true]
    exact Or.inl (isPrefixOf_self_append (a :: p) post)

theorem seqIn_prepend (pat s t : List Char) (h : seqIn pat s = true) :
    seqIn pat (t ++ s) = true := by
  induction t with
  | nil => simpa using h
  | cons c t' ih =>
    simp only [List.cons_append, seqIn, Bool.or_eq_true]
    exact Or.inr ih

theorem containsSeq_self_append (pat post : String) :
    containsSeq pat (pat ++ post) = true := by
  simpa [containsSeq, data_append] using seqIn_self_append pat.data post.data

theorem containsSeq_prepend (pat s t : String) (h : containsSeq pat s = true) :
    containsSeq pat (t ++ s) = true := by
  simpa [containsSeq, data_append] using seqIn_prepend pat.data s.data t.data h

theorem containsSeq_refl (pat : String) : containsSeq pat pat = true := by
  have := containsSeq_self_append pat ""
  rwa [String.append_empty] at this

theorem isPrefixOf_append_right (l : List Char) :
    ∀ (m t : List Char), l.isPrefixOf m = true → l.isPrefixOf (m ++ t) = true := by
  induction l with
  | nil => intro m t _; simp [List.isPrefixOf]
  | cons a l' ih =>
    intro m t h
    cases m with
    | nil => simp [List.isPrefixOf] at h
    | cons b m' =>
      simp only [List.isPrefixOf, Bool.and_eq_true] at h ⊢
      exact ⟨h.1, ih m' t h.2⟩

theorem seqIn_nil_left (t : List Char) : seqIn [] t = true := by
  cases t with
  | nil => simp [seqIn, List.isEmpty]
  | cons c t' => simp [seqIn, List.isPrefixOf]

theorem seqIn_append_right (pat : List Char) :
    ∀ (s t : List Char), seqIn pat s = true → seqIn pat (s ++ t) = true := by
  intro s
  induction s with
  | nil =>
    intro t h
    simp only [seqIn, List.isEmpty_iff] at h
    subst h
    simpa using seqIn_nil_left t
  | cons c s' ih =>
    intro t h
    simp only [seqIn, Bool.or_eq_true] at h ⊢
    rcases h with h | h
    · exact Or.inl (isPrefixOf_append_right _ _ t h)
    · exact Or.inr (ih t h)

theorem containsSeq_append_right (pat s t : String) (h : containsSeq pat s = true) :
    containsSeq pat (s ++ t) = true := by
  simpa [containsSeq, data_append] using seqIn_append_right pat.data s.data t.data h

theorem pySplitChar_ne_nil (l : List Char) (c : Char) : pySplitChar l c ≠ [] := by
  cases l with
  | nil => simp [pySplitChar]
  | cons x xs =>
    simp only [pySplitChar]
    cases h : pySplitChar xs c with
    | nil => simp
    | cons y ys =>
      by_cases hx : x = c <;> simp [hx]

theorem pySplitChar_headD (l : List Char) (c : Char) :
    (pySplitChar l c).headD [] = l.takeWhile (fun x => x ≠ c) := by
  induction l with
  | nil => simp [pySplitChar, List.takeWhile]
  | cons x xs ih =>
    simp only [pySplitChar]
    cases h : pySplitChar xs c with
    | nil => exact absurd h (pySplitChar_ne_nil xs c)
    | cons y ys =>
      rw [h] at ih
      simp only [List.headD_cons] at ih
      by_cases hx : x = c
      · simp [hx, List.takeWhile_cons]
      · simp [hx, List.takeWhile_cons, ih]

theorem pySplitChar_headGetD (l : List Char) (c : Char) :
    (pySplitChar l c).head?.getD [] = l.takeWhile (fun x => x ≠ c) := by
  rw [← List.headD_eq_head?_getD]
  exact pySplitChar_headD l c

theorem parseEventLine_eq_claimEventName (line : String) :
    parseEventLine line = claimEventName line := by
  simp only [parseEventLine, claimEventName]
  by_cases h2 : line.data.take 2 = [' ', ' ']
  · by_cases h3 : line.data[2]? = some (Char.ofNat 35)
    · by_cases h1 : line.length ≤ 3 <;> simp [h1, h2, h3]
    · by_cases h1 : line.length ≤ 3
      · simp [h1, h2, h3, Nat.not_lt.mpr h1]
      · simp [h1, h2, h3, Nat.lt_of_not_le h1, pySplitChar_headD, pySplitChar_headGetD]
  · simp [h2]

theorem missingEvents_cons (line : String) (rest events : List String) :
    missingEvents (line :: rest) events =
      missingEvents rest
        (match claimEventName line with
         | some ev => events.erase ev
         | none => events) := rfl

theorem missingEvents_nil_events (lines : List String) : missingEvents lines [] = [] := by
  induction lines with
  | nil => rfl
  | cons line rest ih =>
    rw [missingEvents_cons]
    cases claimEventName line with
    | none => exact ih
    | some ev => simpa using ih

theorem scanLines_eq_missingEvents (lines events : List String) :
    scanLines lines events = missingEvents lines events := by
  induction lines generalizing events with
  | nil => rfl
  | cons line rest ih =>
    rw [missingEvents_cons]
    simp only [scanLines]
    rw [parseEventLine_eq_claimEventName]
    cases h : claimEventName line with
    | none => exact ih events
    | some ev =>
      simp only
      by_cases hmem : ev ∈ events
      · simp only [hmem, if_true]
        by_cases hz : (events.erase ev).length = 0
        · rw [if_pos hz]
          have he : events.erase ev = [] := List.length_eq_zero.mp hz
          rw [he, missingEvents_nil_events]
        · rw [if_neg hz]
          exact ih (events.erase ev)
      · simp only [hmem, if_false]
        rw [List.erase_of_not_mem hmem]
        exact ih events

theorem pollAux_eq_true_iff (n : ℕ) (pred : ℕ → Bool) (k : ℕ) :
    pollAux n pred k = true ↔ ∃ j, j < n ∧ pred (k + j) = true := by
  induction n generalizing k with
  | zero => simp [pollAux]
  | succ m ih =>
    simp only [pollAux]
    by_cases h : pred k = true
    · simp only [h, if_true, true_iff]
      exact ⟨0, Nat.succ_pos m, by simpa using h⟩
    · rw [if_neg h]
      rw [ih (k + 1)]
      constructor
      · rintro ⟨j, hj, hp⟩
        exact ⟨j + 1, by omega, by simpa [Nat.add_comm, Nat.add_assoc, Nat.add_left_comm] using hp⟩
      · rintro ⟨j, hj, hp⟩
        cases j with
        | zero => exact absurd (by simpa using hp) h
        | succ i =>
          exact ⟨i, by omega, by simpa [Nat.add_comm, Nat.add_assoc, Nat.add_left_comm] using hp⟩

theorem pollChecks_boot :
    pollChecks ADB_BOOT_COMPLETED_TIMED_OUT_LIMIT_SECS POLLING_INTERVAL_SECS = 61 := by
  unfold pollChecks ADB_BOOT_COMPLETED_TIMED_OUT_LIMIT_SECS POLLING_INTERVAL_SECS
  norm_num
  decide

theorem pySplit_headD (s : String) (c : Char) :
    (pySplit s c).headD "" = String.mk (s.data.takeWhile (fun x => x ≠ c)) := by
  unfold pySplit
  cases h : pySplitChar s.data c with
  | nil => exact absurd h (pySplitChar_ne_nil s.data c)
  | cons y ys =>
    have := pySplitChar_headD s.data c
    rw [h] at this
    simp only [List.headD_cons] at this
    simp [this]

theorem readCell_writeCell_ne (st : PyListStore) (r r' : ℕ) (v : List String)
    (h : r ≠ r') : readCell (writeCell st r' v) r = readCell st r := by
  unfold readCell writeCell
  rw [List.getElem?_set_ne (by omega)]

theorem scanLinesSt_frame (lines : List String) (st : PyListStore) (cref r : ℕ)
    (h : r ≠ cref) : readCell (scanLinesSt lines st cref) r = readCell st r := by
  induction lines generalizing st with
  | nil => rfl
  | cons line rest ih =>
    simp only [scanLinesSt]
    cases parseEventLine line with
    | none => exact ih st
    | some ev =>
      simp only
      by_cases hmem : ev ∈ readCell st cref
      · rw [if_pos hmem]
        by_cases hz : (readCell (writeCell st cref ((readCell st cref).erase ev)) cref).length = 0
        · rw [if_pos hz]
          exact readCell_writeCell_ne st r cref _ h
        · rw [if_neg hz]
          rw [ih (writeCell st cref ((readCell st cref).erase ev))]
          exact readCell_writeCell_ne st r cref _ h
      · rw [if_neg hmem]
        exact ih st

theorem adbScan_ok (lines : List String) (h : ∀ l ∈ lines, adbLineSafe l) :
    adbScan lines = Except.ok (lines.filterMap readyId) := by
  induction lines with
  | nil => rfl
  | cons line rest ih =>
    obtain ⟨hne, hshape⟩ := h line (List.mem_cons_self _ _)
    have hih := ih (fun l hl => h l (List.mem_cons_of_mem _ hl))
    cases hl : line.data with
    | nil => exact absurd (String.ext hl) hne
    | cons c cs =>
      have hhead : line.data.headD ' ' = c := by rw [hl]; rfl
      simp only [adbScan, hl]
      by_cases hskip : c = Char.ofNat 42 ∨ line = adbDevicesHeader
      · rw [if_pos hskip, hih]
        have hr : readyId line = none := by
          unfold readyId
          rw [hhead, if_pos hskip]
        simp [List.filterMap_cons, hr]
      · rw [if_neg hskip]
        have hlen : 2 ≤ (pySplit line (Char.ofNat 9)).length := by
          rcases hshape with h1 | h1 | h1
          · exact absurd (Or.inl (hhead ▸ h1)) hskip
          · exact absurd (Or.inr h1) hskip
          · exact h1
        cases hw : pySplit line (Char.ofNat 9) with
        | nil => rw [hw] at hlen; simp at hlen
        | cons w0 ws =>
          cases ws with
          | nil => rw [hw] at hlen; simp at hlen
          | cons w1 ws' =>
            have hr : readyId line = if w1 = "device" then some w0 else none := by
              unfold readyId
              rw [hhead, if_neg hskip, hw]
            simp only
            by_cases hd : w1 = "device"
            · rw [if_pos hd, hih]
              simp [List.filterMap_cons, hr, hd, Except.map]
            · rw [if_neg hd, hih]
              simp [List.filterMap_cons, hr, hd]

theorem get_default_serial_cases (env : AdbEnv) :
    (∃ s, get_default_serial env = (some s, none)) ∨
    (∃ e, get_default_serial env = (none, some e)) := by
  unfold get_default_serial
  by_cases ha : env.adb_exists
  · rw [if_neg (by simpa using ha)]
    by_cases hz : env.devices.length = 0
    · rw [if_pos hz]
      exact Or.inr ⟨_, rfl⟩
    · rw [if_neg hz]
      cases hs : env.android_serial with
      | some s =>
        dsimp only
        by_cases hc : env.devices.contains s
        · rw [if_neg (by simpa using hc)]
          exact Or.inl ⟨_, rfl⟩
        · rw [if_pos (by simpa using hc)]
          exact Or.inr ⟨_, rfl⟩
      | none =>
        dsimp only
        by_cases h1 : env.devices.length = 1
        · rw [if_pos h1]
          exact Or.inl ⟨_, rfl⟩
        · rw [if_neg h1]
          cases handle_menu_choice env.devices env.menu_choice with
          | error e => exact Or.inr ⟨_, rfl⟩
          | ok s => exact Or.inl ⟨_, rfl⟩
  · rw [if_pos (by simpa using ha)]
    exact Or.inr ⟨_, rfl⟩

theorem two_zpow_log_le (q : ℚ) (hq : 0 < q) : (2:ℚ) ^ Int.log 2 q ≤ q := by
  have h := Int.zpow_log_le_self (b := 2) (r := q) (by norm_num) hq
  simpa using h

theorem int_log2_eq_of (q : ℚ) (k : ℤ) (hq : 0 < q)
    (h1 : (2:ℚ) ^ k ≤ q) (h2 : q < (2:ℚ) ^ (k + 1)) : Int.log 2 q = k := by
  have hle : k ≤ Int.log 2 q := by
    have hpos : (0:ℚ) < (2:ℚ) ^ k := by positivity
    have hm := Int.log_mono_right (b := 2) hpos h1
    have hz : Int.log 2 ((2:ℚ) ^ k) = k := by
      have := Int.log_zpow (R := ℚ) (b := 2) (by norm_num) k
      simpa using this
    rwa [hz] at hm
  have hge : Int.log 2 q ≤ k := by
    by_contra hcon
    push_neg at hcon
    have hmono : (2:ℚ) ^ (k + 1) ≤ (2:ℚ) ^ Int.log 2 q :=
      zpow_le_zpow_right₀ (by norm_num) (by omega)
    have hself := two_zpow_log_le q hq
    linarith
  omega

theorem int_log2_lt_of_lt (q : ℚ) (x : ℤ) (hq : 0 < q) (h : q < (2:ℚ) ^ x) :
    Int.log 2 q < x :=
  (Int.lt_zpow_iff_log_lt (b := 2) (by norm_num) hq).mp (by simpa using h)

theorem rhe_intCast (n : ℤ) : rhe (n : ℚ) = n := by
  unfold rhe
  rw [Int.floor_intCast]
  rw [if_pos (by norm_num)]

theorem floor_le_rhe (s : ℚ) : ⌊s⌋ ≤ rhe s := by
  unfold rhe
  split_ifs <;> omega

theorem rhe_le_ceil (s : ℚ) : rhe s ≤ ⌈s⌉ := by
  have hfc : ⌊s⌋ ≤ ⌈s⌉ := Int.floor_le_ceil s
  have hstrict : (⌊s⌋ : ℚ) < s → ⌊s⌋ + 1 ≤ ⌈s⌉ := by
    intro hlt
    have hs : s ≤ (⌈s⌉ : ℚ) := Int.le_ceil s
    have hq : (⌊s⌋ : ℚ) < (⌈s⌉ : ℚ) := lt_of_lt_of_le hlt hs
    have hz : ⌊s⌋ < ⌈s⌉ := by exact_mod_cast hq
    omega
  unfold rhe
  split_ifs with h1 h2 h3
  · exact hfc
  · exact hstrict (by linarith)
  · exact hfc
  · push_neg at h1 h2
    exact hstrict (by linarith)

theorem rhe_le_of_le (s : ℚ) (n : ℤ) (h : s ≤ (n : ℚ)) : rhe s ≤ n :=
  le_trans (rhe_le_ceil s) (Int.ceil_le.mpr h)

theorem le_rhe_of_le (s : ℚ) (n : ℤ) (h : (n : ℚ) ≤ s) : n ≤ rhe s :=
  le_trans (Int.le_floor.mpr h) (floor_le_rhe s)

theorem abs_rhe_sub_le (s : ℚ) : |(rhe s : ℚ) - s| ≤ 1 / 2 := by
  have h0 : (⌊s⌋ : ℚ) ≤ s := Int.floor_le s
  have h1 : s < (⌊s⌋ : ℚ) + 1 := Int.lt_floor_add_one s
  unfold rhe
  split_ifs with ha hb hc
  · rw [abs_le]; constructor <;> linarith
  · rw [abs_le]; push_cast; constructor <;> linarith
  · push_neg at ha hb
    rw [abs_le]; constructor <;> linarith
  · push_neg at ha hb
    rw [abs_le]; push_cast; constructor <;> linarith

theorem pyRound64_pos (q : ℚ) (hq : 0 < q) :
    pyRound64 q = (rhe (q / 2 ^ (Int.log 2 q - 52)) : ℚ) * 2 ^ (Int.log 2 q - 52) := by
  unfold pyRound64
  rw [if_neg (ne_of_gt hq), if_pos hq]

theorem abs_pyRound64_sub_le (q : ℚ) (hq : 0 < q) :
    |pyRound64 q - q| ≤ 2 ^ (Int.log 2 q - 52) / 2 := by
  rw [pyRound64_pos q hq]
  have hpow : (0:ℚ) < 2 ^ (Int.log 2 q - 52) := by positivity
  have key : (rhe (q / 2 ^ (Int.log 2 q - 52)) : ℚ) * 2 ^ (Int.log 2 q - 52) - q
      = ((rhe (q / 2 ^ (Int.log 2 q - 52)) : ℚ) - q / 2 ^ (Int.log 2 q - 52))
        * 2 ^ (Int.log 2 q - 52) := by
    field_simp
  rw [key, abs_mul, abs_of_pos hpow]
  have h := abs_rhe_sub_le (q / 2 ^ (Int.log 2 q - 52))
  calc |(rhe (q / 2 ^ (Int.log 2 q - 52)) : ℚ) - q / 2 ^ (Int.log 2 q - 52)|
        * 2 ^ (Int.log 2 q - 52)
      ≤ (1 / 2) * 2 ^ (Int.log 2 q - 52) :=
        mul_le_mul_of_nonneg_right h (le_of_lt hpow)
    _ = 2 ^ (Int.log 2 q - 52) / 2 := by ring

theorem pyRound64_intCast (k : ℤ) (hk : 0 < k) (hlog : Int.log 2 (k : ℚ) ≤ 52) :
    pyRound64 (k : ℚ) = (k : ℚ) := by
  have hkq : (0:ℚ) < (k:ℚ) := by exact_mod_cast hk
  rw [pyRound64_pos _ hkq]
  set L := Int.log 2 (k : ℚ) with hL
  have hm : ((52 - L).toNat : ℤ) = 52 - L := Int.toNat_of_nonneg (by omega)
  have hzp : (2:ℚ) ^ ((52 - L).toNat) = (2:ℚ) ^ ((52 : ℤ) - L) := by
    rw [← zpow_natCast (2:ℚ) (52 - L).toNat, hm]
  have hs : (k : ℚ) / 2 ^ (L - 52) = ((k * 2 ^ (52 - L).toNat : ℤ) : ℚ) := by
    push_cast
    rw [hzp]
    rw [div_eq_mul_inv, ← zpow_neg]
    rw [show -(L - 52) = 52 - L by ring]
  rw [hs, rhe_intCast]
  push_cast
  rw [hzp]
  rw [mul_assoc, ← zpow_add₀ (by norm_num : (2:ℚ) ≠ 0)]
  rw [show (52 - L) + (L - 52) = 0 by ring, zpow_zero, mul_one]

theorem pyCeilDurSecs_exact (d : ℤ) (h0 : 0 < d) (h1 : d ≤ 10 ^ 15) :
    pyCeilDurSecs d = ⌈(d : ℚ) / 1000⌉ := by
  unfold pyCeilDurSecs
  set q : ℚ := (d : ℚ) / 1000 with hqdef
  have hq : 0 < q := div_pos (by exact_mod_cast h0) (by norm_num)
  have hq12 : q ≤ (10:ℚ) ^ 12 := by
    rw [hqdef, div_le_iff₀ (by norm_num : (0:ℚ) < 1000)]
    calc (d : ℚ) ≤ ((10:ℚ) ^ 15) := by exact_mod_cast h1
      _ = 10 ^ 12 * 1000 := by norm_num
  have hqlt : q < (2:ℚ) ^ (40 : ℤ) := lt_of_le_of_lt hq12 (by norm_num)
  have hlog : Int.log 2 q < 40 := int_log2_lt_of_lt q 40 hq hqlt
  by_cases hr : d % 1000 = 0
  · have hkpos : 0 < d / 1000 := by omega
    have hqk : q = ((d / 1000 : ℤ) : ℚ) := by
      rw [hqdef]
      rw [show (d:ℚ) = 1000 * ((d / 1000 : ℤ) : ℚ) by
        exact_mod_cast congrArg (fun z : ℤ => (z : ℚ)) (by omega : d = 1000 * (d / 1000))]
      ring
    rw [hqk] at hlog ⊢
    rw [pyRound64_intCast _ hkpos (by omega)]
  · have hr1 : 1 ≤ d % 1000 := by
      have := Int.emod_nonneg d (by norm_num : (1000:ℤ) ≠ 0)
      omega
    have hr2 : d % 1000 ≤ 999 := by
      have := Int.emod_lt_of_pos d (by norm_num : (0:ℤ) < 1000)
      omega
    have hqkr : q = ((d / 1000 : ℤ) : ℚ) + ((d % 1000 : ℤ) : ℚ) / 1000 := by
      rw [hqdef]
      rw [show (d:ℚ) = 1000 * ((d / 1000 : ℤ) : ℚ) + ((d % 1000 : ℤ) : ℚ) by
        exact_mod_cast congrArg (fun z : ℤ => (z : ℚ))
          (Int.ediv_add_emod d 1000).symm]
      ring
    have hpowle : (2:ℚ) ^ (Int.log 2 q - 52) ≤ (2:ℚ) ^ (-13 : ℤ) :=
      zpow_le_zpow_right₀ (by norm_num) (by omega)
    have herr2 : |pyRound64 q - q| ≤ 1 / 16384 := by
      have herr := abs_pyRound64_sub_le q hq
      have hsm : (2:ℚ) ^ (-13 : ℤ) = 1 / 8192 := by norm_num
      rw [hsm] at hpowle
      linarith
    have hbounds := abs_le.mp herr2
    have h1r : (1:ℚ) ≤ ((d % 1000 : ℤ) : ℚ) := by exact_mod_cast hr1
    have h2r : ((d % 1000 : ℤ) : ℚ) ≤ 999 := by exact_mod_cast hr2
    have hceilq : ⌈q⌉ = d / 1000 + 1 := by
      rw [Int.ceil_eq_iff]
      constructor
      · push_cast
        rw [hqkr]
        linarith
      · push_cast
        rw [hqkr]
        linarith
    rw [hceilq, Int.ceil_eq_iff]
    constructor
    · push_cast
      linarith [hbounds.1, hqkr]
    · push_cast
      linarith [hbounds.2, hqkr]

theorem pyCeilDurSecs_big : pyCeilDurSecs (10 ^ 17 + 1) = 100000000000000 := by
  unfold pyCeilDurSecs
  have hcast : (((10:ℤ) ^ 17 + 1 : ℤ) : ℚ) / 1000 = (10 ^ 17 + 1 : ℚ) / 1000 := by
    push_cast
    ring
  rw [hcast]
  have hq : (0:ℚ) < (10 ^ 17 + 1 : ℚ) / 1000 := by norm_num
  have hlog : Int.log 2 ((10 ^ 17 + 1 : ℚ) / 1000) = 46 :=
    int_log2_eq_of _ 46 hq (by norm_num) (by norm_num)
  rw [pyRound64_pos _ hq, hlog]
  have hs : (10 ^ 17 + 1 : ℚ) / 1000 / 2 ^ ((46 : ℤ) - 52)
      = 800000000000000008 / 125 := by
    norm_num
  rw [hs]
  have hfl : ⌊(800000000000000008 / 125 : ℚ)⌋ = 6400000000000000 := by
    rw [Int.floor_eq_iff]
    norm_num
  have hrhe : rhe (800000000000000008 / 125 : ℚ) = 6400000000000000 := by
    unfold rhe
    rw [hfl]
    rw [if_pos (by norm_num)]
  rw [hrhe]
  have hv : ((6400000000000000 : ℤ) : ℚ) * 2 ^ ((46 : ℤ) - 52)
      = ((100000000000000 : ℤ) : ℚ) := by
    norm_num
  rw [hv, Int.ceil_intCast]

/-! ## Claim theorems -/

/-- C1 (amended): `simpleperf_event_exists` scans the profiler list
output line by line; a line contributes a candidate event name exactly
when it is longer than three characters, starts with two spaces and its
third character is not `#`, and the candidate name is the token from the
third character up to the first space there (empty for deeper-indented
lines); each candidate name removes at most one pending occurrence of an
equal requested event; after the scan it returns `None` when no
requested occurrence is pending and otherwise one `ValidationError`
listing the pending ones; when the simpleperf binary is absent it
returns the distinct push-the-binary error before any line scanning. -/
theorem simpleperf_event_exists_parse_report (binary_on_device : Bool)
    (list_output : String) (simpleperf_events : List String) :
    (binary_on_device = false →
      simpleperf_event_exists binary_on_device list_output simpleperf_events
        = some simpleperfMissingError) ∧
    (binary_on_device = true →
      (missingEvents (pySplit list_output (Char.ofNat 10)) simpleperf_events = [] →
        simpleperf_event_exists binary_on_device list_output simpleperf_events = none) ∧
      (∀ m, missingEvents (pySplit list_output (Char.ofNat 10)) simpleperf_events = m →
        m ≠ [] →
        simpleperf_event_exists binary_on_device list_output simpleperf_events
          = some (invalidEventsError m))) := by
  refine ⟨fun hb => ?_, fun hb => ⟨fun hm => ?_, fun m hm hne => ?_⟩⟩
  · subst hb; rfl
  · subst hb
    simp only [simpleperf_event_exists]
    rw [if_neg (by simp)]
    rw [scanLines_eq_missingEvents, hm]
    simp
  · subst hb
    simp only [simpleperf_event_exists]
    rw [if_neg (by simp)]
    rw [scanLines_eq_missingEvents, hm]
    rw [if_pos (List.length_pos.mpr hne)]

/-- C1 witness: a two-space-indented documented event line is matched
and the call returns `None`. -/
theorem simpleperf_event_exists_parse_report_witness :
    missingEvents (pySplit "  cpu-clock doc" (Char.ofNat 10)) ["cpu-clock"] = [] ∧
    simpleperf_event_exists true "  cpu-clock doc" ["cpu-clock"] = none :=
  ⟨by decide,
   ((simpleperf_event_exists_parse_report true "  cpu-clock doc" ["cpu-clock"]).2
      rfl).1 (by decide)⟩

/-- C1 counterexample: the line `"  a"` is indented by exactly two
spaces and names the event `a` under the rule of the claim, yet the source
skips it (its length is at most three) and reports `a` invalid; and the
line `"   b"` is not indented by exactly two spaces, yet the source
treats it as naming the empty token, so a request for `""` is reported
found. -/
theorem simpleperf_event_exists_claim_counterexample :
    simpleperf_event_exists true "  a" ["a"] = some (invalidEventsError ["a"]) ∧
    simpleperf_event_exists true "   b" [""] = none := by
  decide

/-- C8: `simpleperf_event_exists` never mutates the list of the caller: in
the store embedding, where `events_copy = simpleperf_events.copy()`
allocates a fresh cell and every removal writes through the reference
of the copy, the cell of the caller is element-for-element unchanged whatever
the result. -/
theorem simpleperf_event_exists_no_mutation (binary_on_device : Bool)
    (list_output : String) (st : PyListStore) (events_ref : ℕ)
    (h : events_ref < st.cells.length) :
    readCell (simpleperf_event_exists_st binary_on_device list_output st events_ref).1
        events_ref
      = readCell st events_ref := by
  unfold simpleperf_event_exists_st
  have hne : events_ref ≠ st.cells.length := Nat.ne_of_lt h
  have happ : readCell ⟨st.cells ++ [readCell st events_ref]⟩ events_ref
      = readCell st events_ref := by
    unfold readCell
    simp only
    rw [List.getElem?_append, if_pos h]
  cases binary_on_device with
  | false => simpa using happ
  | true =>
    rw [if_neg (by simp)]
    by_cases hc :
        0 < (readCell (scanLinesSt (pySplit list_output (Char.ofNat 10))
          ⟨st.cells ++ [readCell st events_ref]⟩ st.cells.length) st.cells.length).length
    · rw [if_pos hc]
      dsimp only
      rw [scanLinesSt_frame _ _ _ _ hne]
      exact happ
    · rw [if_neg hc]
      dsimp only
      rw [scanLinesSt_frame _ _ _ _ hne]
      exact happ

/-- C8 witness. -/
theorem simpleperf_event_exists_no_mutation_witness :
    0 < (PyListStore.mk [["cpu-clock"]]).cells.length ∧
    readCell (simpleperf_event_exists_st true "  x y" ⟨[["cpu-clock"]]⟩ 0).1 0
      = readCell ⟨[["cpu-clock"]]⟩ 0 :=
  ⟨by decide,
   simpleperf_event_exists_no_mutation true "  x y" ⟨[["cpu-clock"]]⟩ 0 (by decide)⟩

/-- C2: `get_default_serial` decides in order: missing adb, then empty
device list, then the `ANDROID_SERIAL` default (an error naming it when
it is not connected), then the single connected device. -/
theorem get_default_serial_resolution (env : AdbEnv) :
    (env.adb_exists = false →
      get_default_serial env
        = (none, some ⟨"adb could not be found on the host device.", none⟩)) ∧
    (env.adb_exists = true → env.devices = [] →
      get_default_serial env
        = (none, some ⟨"There are currently no devices connected.", none⟩)) ∧
    (∀ s, env.adb_exists = true → env.android_serial = some s → env.devices ≠ [] →
      (s ∈ env.devices → get_default_serial env = (some s, none)) ∧
      (s ∉ env.devices →
        get_default_serial env = (none, some (androidSerialNotConnectedError s)) ∧
        containsSeq s (androidSerialNotConnectedError s).message = true)) ∧
    (∀ d, env.adb_exists = true → env.android_serial = none → env.devices = [d] →
      get_default_serial env = (some d, none)) := by
  refine ⟨fun ha => ?_, fun ha hz => ?_, fun s ha hs hnz => ⟨fun hmem => ?_, fun hmem => ?_⟩,
    fun d ha hs h1 => ?_⟩
  · unfold get_default_serial
    rw [if_pos (by simp [ha])]
  · unfold get_default_serial
    rw [if_neg (by simp [ha]), if_pos (by simp [hz])]
  · unfold get_default_serial
    rw [if_neg (by simp [ha]), if_neg (by simp [List.length_eq_zero, hnz]), hs]
    dsimp only
    rw [if_neg (by simp [hmem])]
  · constructor
    · unfold get_default_serial
      rw [if_neg (by simp [ha]), if_neg (by simp [List.length_eq_zero, hnz]), hs]
      dsimp only
      rw [if_pos (by simp [hmem])]
    · exact containsSeq_append_right _ _ _ (containsSeq_append_right _ _ _
        (containsSeq_prepend _ _ _ (containsSeq_refl s)))
  · unfold get_default_serial
    rw [if_neg (by simp [ha]), if_neg (by simp [h1]), hs]
    dsimp only
    rw [if_pos (by simp [h1])]
    simp [h1]

/-- C2 witness: one connected device and no environment default. -/
theorem get_default_serial_resolution_witness :
    (AdbEnv.mk true ["a"] none "").adb_exists = true ∧
    (AdbEnv.mk true ["a"] none "").android_serial = none ∧
    (AdbEnv.mk true ["a"] none "").devices = ["a"] ∧
    get_default_serial ⟨true, ["a"], none, ""⟩ = (some "a", none) :=
  ⟨rfl, rfl, rfl,
   (get_default_serial_resolution ⟨true, ["a"], none, ""⟩).2.2.2 "a" rfl rfl rfl⟩

/-- C6 (amended): `verify_serial` returns `None` iff adb is present,
the reachable set is nonempty and the id is a member; when adb is
present and devices exist but the id is absent, the error names the id;
when adb is absent or no device is connected, the error is the generic
message, which does not name the id. -/
theorem verify_serial_membership (env : AdbEnv) (serial : String) :
    (verify_serial env serial = none ↔
      (env.adb_exists = true ∧ env.devices ≠ [] ∧ serial ∈ env.devices)) ∧
    (env.adb_exists = true → env.devices ≠ [] → serial ∉ env.devices →
      verify_serial env serial
        = some ⟨"Device with serial " ++ serial ++ " is not connected.", none⟩ ∧
      containsSeq serial
        ("Device with serial " ++ serial ++ " is not connected.") = true) ∧
    (env.adb_exists = false →
      verify_serial env serial
        = some ⟨"adb could not be found on the host device.", none⟩) ∧
    (env.adb_exists = true → env.devices = [] →
      verify_serial env serial
        = some ⟨"There are currently no devices connected.", none⟩) := by
  refine ⟨?_, fun ha hnz hmem => ⟨?_, ?_⟩, fun ha => ?_, fun ha hz => ?_⟩
  · unfold verify_serial
    cases ha : env.adb_exists with
    | false => simp
    | true =>
      by_cases hz : env.devices.length = 0
      · simp [hz, List.length_eq_zero.mp hz]
      · by_cases hmem : serial ∈ env.devices
        · simp [hz, hmem, List.length_eq_zero]
          intro hc
          rw [hc] at hmem
          simp at hmem
        · simp [hz, hmem, List.length_eq_zero]
  · unfold verify_serial
    rw [if_neg (by simp [ha]), if_neg (by simp [List.length_eq_zero, hnz]),
      if_pos (by simp [hmem])]
  · exact containsSeq_append_right _ _ _
      (containsSeq_prepend _ _ _ (containsSeq_refl serial))
  · unfold verify_serial
    rw [if_pos (by simp [ha])]
  · unfold verify_serial
    rw [if_neg (by simp [ha]), if_pos (by simp [hz])]

/-- C6 witness: a connected device that is not the requested one. -/
theorem verify_serial_membership_witness :
    (AdbEnv.mk true ["a"] none "").adb_exists = true ∧
    (AdbEnv.mk true ["a"] none "").devices ≠ [] ∧
    "b" ∉ (AdbEnv.mk true ["a"] none "").devices ∧
    verify_serial ⟨true, ["a"], none, ""⟩ "b"
      = some ⟨"Device with serial " ++ "b" ++ " is not connected.", none⟩ :=
  ⟨rfl, by decide, by decide,
   ((verify_serial_membership ⟨true, ["a"], none, ""⟩ "b").2.1 rfl (by decide)
      (by decide)).1⟩

/-- C6 counterexample: with adb present and no device connected, the id
`XYZ` is not in the reachable set, but the returned error is the generic
no-devices message, which does not name `XYZ`. -/
theorem verify_serial_claim_counterexample :
    verify_serial ⟨true, [], none, ""⟩ "XYZ"
      = some ⟨"There are currently no devices connected.", none⟩ ∧
    containsSeq "XYZ" "There are currently no devices connected." = false := by
  decide

/-- C3 (amended): over the scanned slice (all but the last two lines of
the newline-split listing), `get_adb_devices` returns the first
tab-field of every line whose second tab-field is `device`, in reporting
order, skipping lines starting with `*` and the header line — provided
every scanned line is nonempty and either skipped or carrying at least
two tab-fields; a scanned line outside that shape raises an
`IndexError` instead of being skipped. -/
theorem get_adb_devices_ready_lines (listing_output : String)
    (h : ∀ l ∈ adbScannedLines listing_output, adbLineSafe l) :
    get_adb_devices listing_output
      = Except.ok ((adbScannedLines listing_output).filterMap readyId) := by
  unfold get_adb_devices
  exact adbScan_ok _ h

/-- C3 witness: one ready, one busy and one starred line. -/
theorem get_adb_devices_ready_lines_witness :
    (∀ l ∈ adbScannedLines
        "* daemon started\nList of devices attached\nA\tdevice\nB\tunauthorized\nC\tdevice\n\n",
      adbLineSafe l) ∧
    get_adb_devices
        "* daemon started\nList of devices attached\nA\tdevice\nB\tunauthorized\nC\tdevice\n\n"
      = Except.ok ["A", "C"] :=
  ⟨by decide,
   Eq.trans
     (get_adb_devices_ready_lines
       "* daemon started\nList of devices attached\nA\tdevice\nB\tunauthorized\nC\tdevice\n\n"
       (by decide))
     rfl⟩

/-- C3 counterexample: a scanned line with no tab-separated status
field is not skipped — the whole call faults with an `IndexError`,
discarding the well-shaped entry before it. -/
theorem get_adb_devices_claim_counterexample :
    get_adb_devices "List of devices attached\nA\tdevice\nx\n\n"
      = Except.error "IndexError" ∧
    (get_adb_devices "List of devices attached\nA\tdevice\nx\n\n").isOk = false :=
  ⟨rfl, rfl⟩

/-- C4 (amended): `wait_for_boot_to_complete` polls the boot check at
0.5-second intervals within the 30-second limit — checks k = 0..60 —
where the check is true exactly when the whitespace-stripped
`sys.boot_completed` output equals `"1"`; with no true observation among
those checks it raises an exception naming the serial of the device. -/
theorem wait_for_boot_to_complete_polls (serial : String)
    (getprop_outputs : ℕ → String) :
    (wait_for_boot_to_complete serial getprop_outputs = Except.ok () ↔
      ∃ k, k ≤ 60 ∧ is_boot_completed (getprop_outputs k) = true) ∧
    ((∀ k, k ≤ 60 → is_boot_completed (getprop_outputs k) = false) →
      wait_for_boot_to_complete serial getprop_outputs
        = Except.error ("Device with serial " ++ serial
            ++ " took too long to finish rebooting.")) := by
  have hpoll : poll_is_task_completed ADB_BOOT_COMPLETED_TIMED_OUT_LIMIT_SECS
      POLLING_INTERVAL_SECS (fun k => is_boot_completed (getprop_outputs k)) = true ↔
      ∃ k, k ≤ 60 ∧ is_boot_completed (getprop_outputs k) = true := by
    unfold poll_is_task_completed
    rw [pollChecks_boot, pollAux_eq_true_iff]
    constructor
    · rintro ⟨j, hj, hp⟩
      exact ⟨j, by omega, by simpa using hp⟩
    · rintro ⟨k, hk, hp⟩
      exact ⟨k, by omega, by simpa using hp⟩
  constructor
  · unfold wait_for_boot_to_complete
    by_cases hb : poll_is_task_completed ADB_BOOT_COMPLETED_TIMED_OUT_LIMIT_SECS
        POLLING_INTERVAL_SECS (fun k => is_boot_completed (getprop_outputs k)) = true
    · rw [if_pos hb]
      simp only [true_iff]
      exact hpoll.mp hb
    · rw [if_neg hb]
      exact iff_of_false (by simp) (fun hex => hb (hpoll.mpr hex))
  · intro hall
    unfold wait_for_boot_to_complete
    have hb : ¬ poll_is_task_completed ADB_BOOT_COMPLETED_TIMED_OUT_LIMIT_SECS
        POLLING_INTERVAL_SECS (fun k => is_boot_completed (getprop_outputs k)) = true := by
      intro hb
      obtain ⟨k, hk, hp⟩ := hpoll.mp hb
      rw [hall k hk] at hp
      exact Bool.noConfusion hp
    rw [if_neg hb]

/-- C4 witness: the property never reads `"1"`, so the call times out
with the fault naming the serial. -/
theorem wait_for_boot_to_complete_polls_witness :
    (∀ k, k ≤ 60 → is_boot_completed ((fun _ => "0") k) = false) ∧
    wait_for_boot_to_complete "SER1" (fun _ => "0")
      = Except.error ("Device with serial " ++ "SER1"
          ++ " took too long to finish rebooting.") :=
  ⟨by decide,
   (wait_for_boot_to_complete_polls "SER1" (fun _ => "0")).2 (by decide)⟩

/-- C4 counterexample: the raw property output `"1\n"` is not exactly
the string `"1"`, yet the check in the source accepts it (the output is
stripped before comparison) and the wait succeeds. -/
theorem wait_for_boot_claim_counterexample :
    wait_for_boot_to_complete "S" (fun _ => "1\n") = Except.ok () ∧
    ("1\n" : String) ≠ "1" ∧ is_boot_completed "1\n" = true := by
  refine ⟨?_, by decide, by decide⟩
  unfold wait_for_boot_to_complete poll_is_task_completed
  rw [pollChecks_boot]
  rfl

/-- C5 (amended): `start_package` returns a `ValidationError` naming
the package and the device serial exactly when the first line of the
stderr of the launch command (the text before the first newline) is
non-empty — independent of the exit status of the command, which is never
consulted — and returns `None` when that first line is empty, even if
later stderr lines are not. -/
theorem start_package_stderr_rule (package serial am_start_stderr : String) :
    (start_package package serial am_start_stderr = none ↔
      am_start_stderr.data.takeWhile (fun c => c ≠ Char.ofNat 10) = []) ∧
    (am_start_stderr.data.takeWhile (fun c => c ≠ Char.ofNat 10) ≠ [] →
      start_package package serial am_start_stderr
        = some ⟨startPackageErrorMessage package serial, none⟩ ∧
      containsSeq package (startPackageErrorMessage package serial) = true ∧
      containsSeq serial (startPackageErrorMessage package serial) = true) := by
  have hhead : (pySplit am_start_stderr (Char.ofNat 10)).headD ""
      = String.mk (am_start_stderr.data.takeWhile (fun c => c ≠ Char.ofNat 10)) :=
    pySplit_headD am_start_stderr (Char.ofNat 10)
  have hmk : ∀ l : List Char, (String.mk l = "") ↔ l = [] := by
    intro l
    constructor
    · intro hl
      have := congrArg String.data hl
      simpa using this
    · intro hl
      rw [hl]
  constructor
  · unfold start_package
    rw [hhead]
    by_cases he : am_start_stderr.data.takeWhile (fun c => c ≠ Char.ofNat 10) = []
    · rw [if_neg (not_not_intro ((hmk _).mpr he))]
      exact iff_of_true rfl he
    · rw [if_pos (fun hmkeq => he ((hmk _).mp hmkeq))]
      exact iff_of_false (fun hcontra => Option.noConfusion hcontra) he
  · intro hne
    refine ⟨?_, ?_, ?_⟩
    · unfold start_package
      rw [hhead]
      rw [if_pos (fun hmkeq => hne ((hmk _).mp hmkeq))]
    · unfold startPackageErrorMessage
      exact containsSeq_append_right _ _ _ (containsSeq_append_right _ _ _
        (containsSeq_append_right _ _ _ (containsSeq_append_right _ _ _
          (containsSeq_append_right _ _ _ (containsSeq_append_right _ _ _
            (containsSeq_append_right _ _ _
              (containsSeq_prepend _ _ _ (containsSeq_refl package))))))))
    · unfold startPackageErrorMessage
      exact containsSeq_append_right _ _ _ (containsSeq_append_right _ _ _
        (containsSeq_append_right _ _ _ (containsSeq_append_right _ _ _
          (containsSeq_append_right _ _ _
            (containsSeq_prepend _ _ _ (containsSeq_refl serial))))))

/-- C5 witness: a one-line stderr yields the package-and-serial error. -/
theorem start_package_stderr_rule_witness :
    ("Error: not launchable" : String).data.takeWhile
        (fun c => c ≠ Char.ofNat 10) ≠ [] ∧
    start_package "com.app" "SER2" "Error: not launchable"
      = some ⟨startPackageErrorMessage "com.app" "SER2", none⟩ :=
  ⟨by decide,
   ((start_package_stderr_rule "com.app" "SER2" "Error: not launchable").2
      (by decide)).1⟩

/-- C5 counterexample: a stderr that is non-empty but whose first line
is empty (it starts with a newline) makes `start_package` return `None`,
against the any-non-empty-stderr rule of the claim. -/
theorem start_package_claim_counterexample :
    start_package "p" "s" "\nerror: activity not started" = none ∧
    ("\nerror: activity not started" : String) ≠ "" := by
  decide

/-- C7 (amended): given that the user-listing parse succeeds with ids
`users` (the integer between the first `\x7b` and the following `:` on
each scanned user line — a line without `\x7b` faults instead),
`user_exists u` returns `None` exactly when `u` is among them, and
otherwise a `ValidationError` whose suggestion enumerates the ids,
comma-separated, in reporting order. -/
theorem user_exists_membership (serial pm_output : String) (user : Int)
    (users : List Int) (h : get_all_users pm_output = Except.ok users) :
    (user_exists serial pm_output user = Except.ok none ↔ user ∈ users) ∧
    (user ∉ users →
      user_exists serial pm_output user = Except.ok (some
        ⟨"User ID " ++ toString user ++ " does not exist on device with serial "
           ++ serial ++ ".",
         some (userExistsSuggestion serial users)⟩)) := by
  constructor
  · unfold user_exists
    rw [h]
    dsimp only
    by_cases hmem : user ∈ users
    · rw [if_neg (by simpa using hmem)]
      exact iff_of_true rfl hmem
    · rw [if_pos (by simpa using hmem)]
      exact iff_of_false
        (fun hc => Option.noConfusion (Except.ok.inj hc)) hmem
  · intro hmem
    unfold user_exists
    rw [h]
    dsimp only
    rw [if_pos (by simpa using hmem)]

/-- C7 witness: the example given with the claim — users 0 and 1 reported, user 3
requested, suggestion enumerating `0, 1`. -/
theorem user_exists_membership_witness :
    get_all_users "Users:\n\tUserInfo\x7b0:Owner\x7d running\n\tUserInfo\x7b1:Guest\x7d\n"
      = Except.ok [0, 1] ∧
    (3 : Int) ∉ ([0, 1] : List Int) ∧
    user_exists "SER3"
        "Users:\n\tUserInfo\x7b0:Owner\x7d running\n\tUserInfo\x7b1:Guest\x7d\n" 3
      = Except.ok (some
          ⟨"User ID " ++ toString (3 : Int)
             ++ " does not exist on device with serial " ++ "SER3" ++ ".",
           some (userExistsSuggestion "SER3" [0, 1])⟩) ∧
    userExistsSuggestion "SER3" [0, 1]
      = "Select from one of the following user IDs on device with serial SER3: 0, 1" :=
  ⟨rfl, by decide,
   (user_exists_membership "SER3"
       "Users:\n\tUserInfo\x7b0:Owner\x7d running\n\tUserInfo\x7b1:Guest\x7d\n"
       3 [0, 1] rfl).2 (by decide),
   rfl⟩

/-- C7 counterexample: on the user line `0:Owner` the integer preceding
the first `:` is 0, but the source indexes the piece after a `\x7b` that
is not there, so `user_exists 0` faults with an `IndexError` instead of
returning `None`. -/
theorem user_exists_claim_counterexample :
    user_exists "s" "Users:\n0:Owner\nX" 0 = Except.error "IndexError" ∧
    (user_exists "s" "Users:\n0:Owner\nX" 0).isOk = false :=
  ⟨rfl, rfl⟩

/-- C9 (amended): the record command built by `start_simpleperf_trace`
carries, in its duration slot, `--duration` with
`int(math.ceil(dur_ms / 1000))` whole seconds, where the quotient is
binary64 float division; that value equals the exact ceiling of the
quotient for every `dur_ms` in `(0, 10^15]` — in particular every
`dur_ms` in `(0, 1000]` yields `--duration 1` — but for large durations
the float quotient can round below the exact ceiling; with no duration
the slot is the empty string and no `--duration` bound is passed. -/
theorem start_simpleperf_trace_duration (simpleperf_event : List String) (d : Int) :
    ((start_simpleperf_trace simpleperf_event (some d))[11]?
        = some ("--duration " ++ toString (pyCeilDurSecs d))) ∧
    (0 < d → d ≤ 10 ^ 15 →
      (start_simpleperf_trace simpleperf_event (some d))[11]?
        = some ("--duration " ++ toString (⌈(d : ℚ) / 1000⌉ : Int))) ∧
    (0 < d → d ≤ 1000 →
      (start_simpleperf_trace simpleperf_event (some d))[11]? = some "--duration 1") ∧
    ((start_simpleperf_trace simpleperf_event none)[11]? = some "") := by
  refine ⟨rfl, fun h0 h15 => ?_, fun h0 h1 => ?_, rfl⟩
  · rw [show (start_simpleperf_trace simpleperf_event (some d))[11]?
        = some ("--duration " ++ toString (pyCeilDurSecs d)) from rfl]
    rw [pyCeilDurSecs_exact d h0 h15]
  · have hce : (⌈(d : ℚ) / 1000⌉ : Int) = 1 := by
      rw [Int.ceil_eq_iff]
      push_cast
      constructor
      · have hd : (0 : ℚ) < (d : ℚ) := by exact_mod_cast h0
        have h1000 : (0 : ℚ) < 1000 := by norm_num
        linarith [div_pos hd h1000]
      · rw [div_le_one (by norm_num : (0 : ℚ) < 1000)]
        exact_mod_cast h1
    rw [show (start_simpleperf_trace simpleperf_event (some d))[11]?
        = some ("--duration " ++ toString (pyCeilDurSecs d)) from rfl]
    rw [pyCeilDurSecs_exact d h0 (by omega), hce]
    decide

/-- C9 witness: 500 ms rounds up to one whole second. -/
theorem start_simpleperf_trace_duration_witness :
    (0 : Int) < 500 ∧ (500 : Int) ≤ 1000 ∧
    (start_simpleperf_trace ["cpu-cycles"] (some 500))[11]? = some "--duration 1" :=
  ⟨by decide, by decide,
   (start_simpleperf_trace_duration ["cpu-cycles"] 500).2.2.1 (by decide) (by decide)⟩

/-- C9 counterexample: at `dur_ms = 10^17 + 1` the quotient
`(10^17 + 1) / 1000` rounds in binary64 to exactly `10^14` (the excess
`0.001` is below half an ulp there), so the source emits
`--duration 100000000000000` while the exact ceiling the claim asserts
is `100000000000001`. -/
theorem start_simpleperf_trace_claim_counterexample :
    (start_simpleperf_trace ["cpu-cycles"] (some (10 ^ 17 + 1)))[11]?
      = some ("--duration " ++ toString (100000000000000 : Int)) ∧
    (⌈((10 ^ 17 + 1 : Int) : ℚ) / 1000⌉ : Int) = 100000000000001 := by
  constructor
  · rw [show (start_simpleperf_trace ["cpu-cycles"] (some (10 ^ 17 + 1)))[11]?
        = some ("--duration " ++ toString (pyCeilDurSecs (10 ^ 17 + 1))) from rfl]
    rw [pyCeilDurSecs_big]
  · rw [Int.ceil_eq_iff]
    push_cast
    norm_num

/-- C10: `get_device` applies `is_device_required` only on the
default-resolution path: a failed explicit-serial verification returns
`(None, error)` whatever the flag; a failed default resolution returns
`(None, None)` when the flag is false and `(None, error)` when it is
true; a successful path returns `(device, None)`. -/
theorem get_device_required_flag (env : AdbEnv) (s : String) (rest : List String)
    (is_device_required : Bool) :
    (∀ e, verify_serial env s = some e →
      get_device env (some (s :: rest)) is_device_required = (none, some e)) ∧
    (verify_serial env s = none →
      get_device env (some (s :: rest)) is_device_required = (some s, none)) ∧
    (∀ e, (get_default_serial env).2 = some e →
      get_device env none false = (none, none) ∧
      get_device env none true = (none, some e)) ∧
    ((get_default_serial env).2 = none →
      ∃ d, get_device env none is_device_required = (some d, none)) := by
  refine ⟨fun e he => ?_, fun hn => ?_, fun e he => ⟨?_, ?_⟩, fun hn => ?_⟩
  · simp only [get_device]
    rw [he]
  · simp only [get_device]
    rw [hn]
  · simp only [get_device]
    rw [he]
    simp
  · simp only [get_device]
    rw [he]
    simp
  · rcases get_default_serial_cases env with ⟨d, hd⟩ | ⟨e, he⟩
    · refine ⟨d, ?_⟩
      simp only [get_device, hd]
    · rw [he] at hn
      simp at hn

/-- C10 witness: an explicit serial that fails verification returns the
error even though a device is connected and the flag is true. -/
theorem get_device_required_flag_witness :
    verify_serial ⟨true, ["a"], none, ""⟩ "x"
      = some ⟨"Device with serial " ++ "x" ++ " is not connected.", none⟩ ∧
    get_device ⟨true, ["a"], none, ""⟩ (some ["x"]) true
      = (none, some ⟨"Device with serial " ++ "x" ++ " is not connected.", none⟩) :=
  ⟨by decide,
   (get_device_required_flag ⟨true, ["a"], none, ""⟩ "x" [] true).1 _ (by decide)⟩

end Torq
